import Mathlib

/-!
Verification development for the Excel Files Combiner
(src/excel_combiner.py), a single-file tool that unzips an archive of
Excel workbooks, filters each sheet by case-insensitive substring
conditions, and merges the surviving sheets into one output workbook.

The shallow embedding below translates the core pipeline:

* `sanitize_sheet_name`  (source lines 34-41)
* `apply_filters`        (source lines 77-91)
* `process_excel_file`   (source lines 93-131)
* the Combine and Download loop and the size guard (lines 133-231)

Modelling conventions:

* A pandas `DataFrame` becomes `Table`: a column-name list plus a list
  of rows, each row a list of `Value` cells aligned with the columns.
  `pd.read_excel(..., sheet_name=None)` yields an ordered dict of
  sheet name to frame, modelled as `List (String × Table)` inside
  `ExcelFile`.
* A cell is a string, an integer, or a missing value (`Value.null`,
  the NaN a frame holds in a cell that was blank in the workbook).
  `Series.astype(str)` renders NaN as the string "nan"; `astypeStr`
  reproduces that.
* `Series.str.contains(value, case=False, na=False)` treats `value`
  as a regular expression with IGNORECASE. For patterns that contain
  no regex metacharacters this is exactly case-insensitive substring
  search, which is how `substrCI` models it; after `astype(str)` the
  series holds no NaN, so the `na=False` argument never fires.
* Streamlit UI calls (`st.warning`, `st.write`, widgets) carry no data
  the pipeline reads back; only `st.session_state.error_sheets` and
  `st.session_state.processed_sheets` are modelled, as `RunState`.
* Python string slicing `s[:31]` acts on code points, modelled as
  `List.take 31` on the character list of the string.
-/

/-- Cell value of a table: the textual and integral cells read_excel
produces, plus the missing value (NaN). -/
inductive Value where
  | str (s : String)
  | int (n : Int)
  | null
deriving DecidableEq, Repr

/-- Conversion a pandas `Series.astype(str)` applies cell-wise: strings
stay, integers print as decimal, and a NaN cell becomes the string
"nan" (it does NOT stay missing). -/
def astypeStr : Value → String
  | .str s => s
  | .int n => toString n
  | .null => "nan"

/-- Character-list lowering, modelling Python case folding on the ASCII
range used by `case=False`. -/
def lowerChars (s : String) : List Char :=
  s.data.map Char.toLower

/-- Case-insensitive substring test: does `hay` contain `pat`? The
source hands `pat` to `Series.str.contains(pat, case=False)`, which
compiles it as a regular expression with IGNORECASE; on the
`literalPattern` domain (ASCII, free of regex metacharacters) over
ASCII text, that regex search is exactly this substring search.
Outside that domain the engine can match more rows (metacharacters),
fold non-ASCII case pairs, or raise into the except path modelled by
`apply_filtersCaught`; theorems about matching results carry the
corresponding hypotheses. -/
def substrCI (hay pat : String) : Bool :=
  (lowerChars hay).tails.any (fun t => (lowerChars pat).isPrefixOf t)

/-- Decides whether a character is plain ASCII. -/
def asciiChar (c : Char) : Bool :=
  c.toNat < 128

/-- Decides whether every character of a string is plain ASCII. -/
def asciiString (s : String) : Bool :=
  s.data.all asciiChar

/-- Decides whether a character is one of the metacharacters of the
Python regex engine behind str.contains: . ^ $ * + ? [ ] \ | ( ) and
the two curly braces (code points 123 and 125). -/
def regexMeta (c : Char) : Bool :=
  c == '.' || c == '^' || c == '$' || c == '*' || c == '+' || c == '?' ||
  c == '[' || c == ']' || c == '\\' || c == '|' || c == '(' || c == ')' ||
  c.toNat == 123 || c.toNat == 125

/-- Domain on which `substrCI` is an exact model of the source's
pattern matching: an ASCII pattern free of regex metacharacters
compiles to a regex that performs plain substring search, cannot
raise, and under IGNORECASE folds exactly the ASCII case pairs. -/
def literalPattern (s : String) : Bool :=
  s.data.all (fun c => asciiChar c && !regexMeta c)

/-- Table: the embedding of a pandas DataFrame. Rows are ordered; each
row lists its cells in column order (a row shorter than `cols` reads as
NaN beyond its end, matching the NaN padding of read_excel). -/
structure Table where
  cols : List String
  rows : List (List Value)
deriving DecidableEq, Repr

/-- Filter condition: a (column name, pattern) pair, the tuples the UI
collects into `filter_conditions`. -/
abbrev Condition := String × String

/-- Filter logic selector, the `logic` string "AND" or "OR". -/
inductive FilterLogic where
  | AND
  | OR
deriving DecidableEq, Repr

/-- Cell lookup `df[column]` at one row: the value in the position of
`c` within `cols`, NaN when the row is too short. -/
def cellValue (cols : List String) (row : List Value) (c : String) : Value :=
  match cols.indexOf? c with
  | some i => row.getD i .null
  | none => .null

/-- Per-row, per-condition test of the source line
`df[column].astype(str).str.contains(value, case=False, na=False)`. -/
def condTest (cols : List String) (row : List Value) (c : Condition) : Bool :=
  substrCI (astypeStr (cellValue cols row c.1)) c.2

/-- One iteration of the mask-building loop of `apply_filters`
(source lines 81-87): a condition on an absent column leaves the mask
untouched; the first contributing condition seeds the mask; later ones
combine with AND or OR. The pandas mask series is pointwise, so it is
modelled at a single row. -/
def maskStep (cols : List String) (row : List Value) (logic : FilterLogic)
    (mask : Option Bool) (c : Condition) : Option Bool :=
  if cols.contains c.1 then
    let current := condTest cols row c
    match mask with
    | none => some current
    | some m =>
      some (match logic with
        | .AND => m && current
        | .OR => m || current)
  else mask

/-- Combined mask of `apply_filters` at one row: `none` models the
Python `mask is None` outcome. -/
def rowMask (cols : List String) (row : List Value) (conds : List Condition)
    (logic : FilterLogic) : Option Bool :=
  conds.foldl (maskStep cols row logic) none

/-- Decides whether any condition references a column of `df`; the mask
of `apply_filters` is `None` exactly when this is false, because only
conditions with `column in df.columns` contribute. -/
def hasActiveCond (df : Table) (conds : List Condition) : Bool :=
  conds.any (fun c => df.cols.contains c.1)

/-- Conditions that actually contribute a mask for `df`: those whose
column exists. -/
def activeConds (cols : List String) (conds : List Condition) : List Condition :=
  conds.filter (fun c => cols.contains c.1)

/-- Embedding of `apply_filters` (source lines 77-91): build the mask
over the conditions; `df[mask]` keeps, in order, the rows where the
mask is true; when the mask stayed `None` the frame is returned
unchanged. This body is total, which is faithful only on the
`literalPattern` domain: in the source an invalid regex pattern makes
str.contains raise inside the loop and the function-level except
return the whole unfiltered frame with a log entry — that error path
is modelled by `apply_filtersCaught`, and the theorems about matching
results are confined to patterns on which it cannot trigger. -/
def apply_filters (df : Table) (conds : List Condition) (logic : FilterLogic) : Table :=
  if hasActiveCond df conds then
    ⟨df.cols, df.rows.filter (fun r => (rowMask df.cols r conds logic).getD false)⟩
  else df

/-- Embedding of the try/except shape of `apply_filters` (source lines
79-91) over an arbitrary body: the wrapper is a total function; an
exception from the body is converted into a log entry and the original
frame is returned as the fallback. -/
def apply_filtersCaught (body : Table → List Condition → FilterLogic → Except String Table)
    (df : Table) (conds : List Condition) (logic : FilterLogic)
    (errs : List String) : Table × List String :=
  match body df conds logic with
  | .ok t => (t, errs)
  | .error e => (df, errs ++ ["Error applying filters: " ++ e])

/-- Run-scoped mutable session state the pipeline writes:
`st.session_state.error_sheets` and `st.session_state.processed_sheets`. -/
structure RunState where
  error_sheets : List String
  processed_sheets : Nat
deriving DecidableEq, Repr

/-- One parsed workbook: its name inside the archive and its sheets in
in-file order, each already loaded as a `Table`. -/
structure ExcelFile where
  name : String
  sheets : List (String × Table)
deriving DecidableEq, Repr

/-- Embedding of `os.path.splitext(p)[0]`: drop the final extension,
where the dot must sit inside the basename and the basename must have a
character other than a dot before it (so ".bashrc" keeps its name). -/
def splitextBase (p : String) : String :=
  let chars := p.data
  let sepIdx : Int := match chars.reverse.indexOf? '/' with
    | some k => (chars.length - 1 - k : Int)
    | none => -1
  let dotIdx : Int := match chars.reverse.indexOf? '.' with
    | some k => (chars.length - 1 - k : Int)
    | none => -1
  if dotIdx > sepIdx ∧
      (List.range chars.length).any
        (fun i => sepIdx < (i : Int) ∧ (i : Int) < dotIdx ∧ chars.getD i '.' ≠ '.') then
    String.mk (chars.take dotIdx.toNat)
  else p

/-- Decides whether a character is one of the seven Excel-invalid sheet
name characters of the regex `[/\\*?:[\]]`. -/
def invalidChar (c : Char) : Bool :=
  c == '/' || c == '\\' || c == '*' || c == '?' || c == ':' || c == '[' || c == ']'

/-- Character-wise action of `re.sub(invalid_chars, "_", ...)`: an
invalid character becomes an underscore, everything else stays. -/
def replChar (c : Char) : Char :=
  if invalidChar c then '_' else c

/-- Embedding of `sanitize_sheet_name` (source lines 34-41): replace
every invalid character with an underscore, then truncate to 31
characters. -/
def sanitize_sheet_name (sheet_name : String) : String :=
  String.mk ((sheet_name.data.map replChar).take 31)

/-- Output sheet name rule of source line 107:
`f"{sanitized_sheet_name}_{sanitized_filename}"[:31]`. -/
def newSheetName (fname sheet_name : String) : String :=
  String.mk (((sanitize_sheet_name sheet_name) ++ "_" ++
    (sanitize_sheet_name (splitextBase fname))).data.take 31)

/-- First five rows of a frame: `df_filtered.head(5)`. -/
def headTable (n : Nat) (df : Table) : Table :=
  ⟨df.cols, df.rows.take n⟩

/-- One iteration of the sheet loop of `process_excel_file` (source
lines 102-127): compute the output name, skip an empty sheet with a log
entry, filter, skip an all-filtered sheet with a log entry, otherwise
append the filtered frame (and, in preview mode, its first five rows)
and bump the processed counter. -/
def processStep (fname : String) (conds : List Condition) (logic : FilterLogic)
    (preview : Bool)
    (acc : List (String × Table) × List (String × Table) × RunState)
    (sheet : String × Table) :
    List (String × Table) × List (String × Table) × RunState :=
  let processed := acc.1
  let preview_data := acc.2.1
  let s := acc.2.2
  let sheet_name := sheet.1
  let df := sheet.2
  let new_sheet_name := newSheetName fname sheet_name
  if df.rows.isEmpty then
    (processed, preview_data,
      ⟨s.error_sheets ++ [sheet_name ++ " in " ++ fname ++ ": Sheet is empty"],
       s.processed_sheets⟩)
  else
    let df_filtered := apply_filters df conds logic
    if df_filtered.rows.isEmpty then
      (processed, preview_data,
        ⟨s.error_sheets ++ [sheet_name ++ " in " ++ fname ++ ": No rows remain after filtering"],
         s.processed_sheets⟩)
    else
      (processed ++ [(new_sheet_name, df_filtered)],
       if preview then preview_data ++ [(new_sheet_name, headTable 5 df_filtered)]
       else preview_data,
       ⟨s.error_sheets, s.processed_sheets + 1⟩)

/-- Embedding of `process_excel_file` (source lines 93-131): an empty
workbook logs "No sheets found" and yields nothing; otherwise the
sheets are visited in in-file order by `processStep`. The file-level
except branch (line 129) is the parse-failure path and is outside this
embedding, which starts from an already parsed `ExcelFile`. -/
def process_excel_file (file : ExcelFile) (conds : List Condition)
    (logic : FilterLogic) (preview : Bool) (st : RunState) :
    List (String × Table) × List (String × Table) × RunState :=
  if file.sheets.isEmpty then
    ([], [], ⟨st.error_sheets ++ [file.name ++ ": No sheets found"], st.processed_sheets⟩)
  else
    file.sheets.foldl (processStep file.name conds logic preview) ([], [], st)

/-- Declarative image of one sheet through `process_excel_file`: the
(name, filtered frame) entry the sheet contributes, or `none` when it
is skipped as empty or as fully filtered out. -/
def keptEntry (fname : String) (conds : List Condition) (logic : FilterLogic)
    (sheet : String × Table) : Option (String × Table) :=
  if sheet.2.rows.isEmpty then none
  else
    let dff := apply_filters sheet.2 conds logic
    if dff.rows.isEmpty then none
    else some (newSheetName fname sheet.1, dff)

/-- Declarative image of the log entry a skipped sheet leaves. -/
def skipLog (fname : String) (conds : List Condition) (logic : FilterLogic)
    (sheet : String × Table) : Option String :=
  if sheet.2.rows.isEmpty then some (sheet.1 ++ " in " ++ fname ++ ": Sheet is empty")
  else if (apply_filters sheet.2 conds logic).rows.isEmpty then
    some (sheet.1 ++ " in " ++ fname ++ ": No rows remain after filtering")
  else none

/-- Embedding of the Combine and Download loop (source lines 219-231):
each archive member is processed in archive order with `preview=False`
and the resulting sheet lists are concatenated into `all_sheets`. -/
def combine_files (files : List ExcelFile) (conds : List Condition)
    (logic : FilterLogic) (st : RunState) : List (String × Table) × RunState :=
  files.foldl (fun acc file =>
    let r := process_excel_file file conds logic false acc.2
    (acc.1 ++ r.1, r.2.2)) ([], st)

/-- Size guard of source lines 141-143: `len(...) / (1024 * 1024)` is
exact real division of a byte count by 2 to the 20th (double rounding
cannot disturb it at these magnitudes), so `zip_size > 100` holds
exactly when the byte count exceeds 100 * 1024 * 1024. -/
def zipSizeExceeds (zipBytes : Nat) : Bool :=
  100 * 1024 * 1024 < zipBytes

/-- Embedding of one Combine and Download run (source lines 133-231):
the session log and counter are reset, then the size guard either
rejects the archive before anything is opened (`none`, empty log) or
the combine loop runs over the parsed archive members. -/
def combine_run (zipBytes : Nat) (files : List ExcelFile)
    (conds : List Condition) (logic : FilterLogic) :
    Option (List (String × Table)) × RunState :=
  if zipSizeExceeds zipBytes then (none, ⟨[], 0⟩)
  else
    let r := combine_files files conds logic ⟨[], 0⟩
    (some r.1, r.2)

/-- Per-row test as the claim words it: the textual representation is
searched case-insensitively, but a missing or null value tests false.
This definition follows the specification text, not the source; it is
the foil the source behavior is compared against. -/
def specCondTest (cols : List String) (row : List Value) (c : Condition) : Bool :=
  match cellValue cols row c.1 with
  | .null => false
  | v => substrCI (astypeStr v) c.2

/-- Filter result as the claim words it: rows whose contributed tests,
combined under the logic, come out true, with missing values testing
false. Follows the specification text, not the source. -/
def spec_apply_filters (df : Table) (conds : List Condition) (logic : FilterLogic) : Table :=
  if hasActiveCond df conds then
    ⟨df.cols, df.rows.filter (fun r =>
      match logic with
      | .AND => (activeConds df.cols conds).all (specCondTest df.cols r)
      | .OR => (activeConds df.cols conds).any (specCondTest df.cols r))⟩
  else df

/-- Concrete sheet of the walkthrough scenario: `Q1` of `Sales.xlsx`
with rows Region=East, Amt=10 and Region=West, Amt=5. -/
def salesTable : Table :=
  ⟨["Region", "Amt"], [[.str "East", .int 10], [.str "West", .int 5]]⟩

/-- Single-row table whose only Region cell is missing (NaN). -/
def nullRegionTable : Table :=
  ⟨["Region"], [[.null]]⟩

/-- Single-row, single-column table used for the absent-column
scenarios. -/
def xTable : Table :=
  ⟨["A"], [[.str "x"]]⟩

/-- Sheet with a header row but zero data rows, the shape read_excel
gives an empty sheet. -/
def emptySheetTable : Table :=
  ⟨["X"], []⟩

/-- Workbook holding the scenario sheet `Q1` followed by an empty
sheet. -/
def salesFileWithEmpty : ExcelFile :=
  ⟨"Sales.xlsx", [("Q1", salesTable), ("Empty", emptySheetTable)]⟩

/-! ## Helper lemmas -/

theorem replChar_not_invalid (c : Char) : invalidChar (replChar c) = false := by
  cases h : invalidChar c
  · simp [replChar, h]
  · simp [replChar, h]
    decide

theorem replChar_idem (c : Char) : replChar (replChar c) = replChar c := by
  cases h : invalidChar c
  · simp [replChar, h]
  · simp [replChar, h]

theorem data_mk (l : List Char) : (String.mk l).data = l := rfl

theorem length_mk (l : List Char) : (String.mk l).length = l.length := rfl

/-! ## C4 and C5: the name sanitizer -/

/-- C4: `sanitize_sheet_name` always returns a name of at most 31
characters, none of which is one of the seven forbidden characters; it
is a total function (a Lean `def`), every forbidden character of the
input having been replaced by an underscore before truncation. -/
theorem sanitize_short_and_clean (s : String) :
    (sanitize_sheet_name s).length ≤ 31 ∧
    (∀ c ∈ (sanitize_sheet_name s).data, invalidChar c = false) := by
  constructor
  · rw [sanitize_sheet_name, length_mk, List.length_take]
    exact min_le_left _ _
  · intro c hc
    rw [sanitize_sheet_name, data_mk] at hc
    have hmem : c ∈ s.data.map replChar := List.mem_of_mem_take hc
    rcases List.mem_map.mp hmem with ⟨a, _, rfl⟩
    exact replChar_not_invalid a

/-- C4 witness: at the concrete input "a[b/c" the sanitized name is
short and its first character is not forbidden. -/
theorem sanitize_short_and_clean_witness :
    (sanitize_sheet_name "a[b/c").length ≤ 31 ∧ invalidChar 'a' = false :=
  ⟨(sanitize_short_and_clean "a[b/c").1,
   (sanitize_short_and_clean "a[b/c").2 'a' (by decide)⟩

/-- C5: `sanitize_sheet_name` is idempotent. -/
theorem sanitize_idempotent (s : String) :
    sanitize_sheet_name (sanitize_sheet_name s) = sanitize_sheet_name s := by
  rw [sanitize_sheet_name, sanitize_sheet_name, data_mk]
  rw [List.map_take, List.take_take, List.map_map]
  rw [show replChar ∘ replChar = replChar from funext replChar_idem]
  simp

/-! ## Characterization of the filter mask -/

theorem maskStep_active (cols : List String) (row : List Value)
    (logic : FilterLogic) (mask : Option Bool) (c : Condition)
    (hc : c.1 ∈ cols) :
    maskStep cols row logic mask c =
      some (match mask with
        | none => condTest cols row c
        | some m => match logic with
          | .AND => m && condTest cols row c
          | .OR => m || condTest cols row c) := by
  cases mask <;> simp [maskStep, hc]

theorem maskStep_inactive (cols : List String) (row : List Value)
    (logic : FilterLogic) (mask : Option Bool) (c : Condition)
    (hc : c.1 ∉ cols) :
    maskStep cols row logic mask c = mask := by
  simp [maskStep, hc]

theorem foldl_maskStep_some_AND (cols : List String) (row : List Value) :
    ∀ (conds : List Condition) (m : Bool),
      conds.foldl (maskStep cols row .AND) (some m) =
        some (m && (activeConds cols conds).all (condTest cols row)) := by
  intro conds
  induction conds with
  | nil => intro m; simp [activeConds]
  | cons c cs ih =>
    intro m
    rw [List.foldl_cons]
    by_cases hc : c.1 ∈ cols
    · rw [maskStep_active cols row .AND (some m) c hc, ih]
      simp [activeConds, List.filter_cons, hc, Bool.and_assoc]
    · rw [maskStep_inactive cols row .AND (some m) c hc, ih]
      simp [activeConds, List.filter_cons, hc]

theorem foldl_maskStep_some_OR (cols : List String) (row : List Value) :
    ∀ (conds : List Condition) (m : Bool),
      conds.foldl (maskStep cols row .OR) (some m) =
        some (m || (activeConds cols conds).any (condTest cols row)) := by
  intro conds
  induction conds with
  | nil => intro m; simp [activeConds]
  | cons c cs ih =>
    intro m
    rw [List.foldl_cons]
    by_cases hc : c.1 ∈ cols
    · rw [maskStep_active cols row .OR (some m) c hc, ih]
      simp [activeConds, List.filter_cons, hc, Bool.or_assoc]
    · rw [maskStep_inactive cols row .OR (some m) c hc, ih]
      simp [activeConds, List.filter_cons, hc]

theorem rowMask_of_active (cols : List String) (row : List Value)
    (logic : FilterLogic) :
    ∀ (conds : List Condition),
      conds.any (fun c => cols.contains c.1) = true →
      rowMask cols row conds logic =
        some (match logic with
          | .AND => (activeConds cols conds).all (condTest cols row)
          | .OR => (activeConds cols conds).any (condTest cols row)) := by
  intro conds
  induction conds with
  | nil => intro h; simp at h
  | cons c cs ih =>
    intro h
    rw [rowMask, List.foldl_cons]
    by_cases hc : c.1 ∈ cols
    · rw [maskStep_active cols row logic none c hc]
      cases logic
      · rw [foldl_maskStep_some_AND]
        simp [activeConds, List.filter_cons, hc]
      · rw [foldl_maskStep_some_OR]
        simp [activeConds, List.filter_cons, hc]
    · have hcs : cs.any (fun c => cols.contains c.1) = true := by
        simp only [List.any_cons] at h
        rcases Bool.or_eq_true_iff.mp h with h1 | h1
        · exact absurd (by simpa using h1) hc
        · exact h1
      rw [maskStep_inactive cols row logic none c hc]
      have := ih hcs
      rw [rowMask] at this
      rw [this]
      cases logic <;> simp [activeConds, List.filter_cons, hc]

theorem apply_filters_of_active (df : Table) (conds : List Condition)
    (logic : FilterLogic) (h : hasActiveCond df conds = true) :
    apply_filters df conds logic =
      ⟨df.cols, df.rows.filter (fun r =>
        match logic with
        | .AND => (activeConds df.cols conds).all (condTest df.cols r)
        | .OR => (activeConds df.cols conds).any (condTest df.cols r))⟩ := by
  rw [apply_filters, if_pos h]
  congr 1
  refine List.filter_congr (fun r _ => ?_)
  rw [rowMask_of_active df.cols r logic conds h]
  cases logic <;> rfl

theorem apply_filters_of_inactive (df : Table) (conds : List Condition)
    (logic : FilterLogic) (h : hasActiveCond df conds = false) :
    apply_filters df conds logic = df := by
  rw [apply_filters, if_neg (by simp [h])]

theorem apply_filters_cols (df : Table) (conds : List Condition)
    (logic : FilterLogic) : (apply_filters df conds logic).cols = df.cols := by
  rw [apply_filters]
  split <;> rfl

theorem mem_apply_filters_rows (df : Table) (conds : List Condition)
    (logic : FilterLogic) (r : List Value) (h : r ∈ (apply_filters df conds logic).rows) :
    r ∈ df.rows := by
  rw [apply_filters] at h
  split at h
  · exact (List.mem_filter.mp h).1
  · exact h

/-! ## Shapes of `apply_filters` on one and two conditions -/

theorem apply_filters_single (T : Table) (c : Condition) (L : FilterLogic)
    (hc : c.1 ∈ T.cols) :
    apply_filters T [c] L = ⟨T.cols, T.rows.filter (fun r => condTest T.cols r c)⟩ := by
  rw [apply_filters_of_active T [c] L (by simp [hasActiveCond, hc])]
  congr 1
  refine List.filter_congr (fun r _ => ?_)
  cases L <;> simp [activeConds, List.filter_cons, hc]

theorem apply_filters_pair_active (T : Table) (c1 c2 : Condition) (L : FilterLogic)
    (h1 : c1.1 ∈ T.cols) (h2 : c2.1 ∈ T.cols) :
    apply_filters T [c1, c2] L = ⟨T.cols, T.rows.filter (fun r =>
      match L with
      | .AND => condTest T.cols r c1 && condTest T.cols r c2
      | .OR => condTest T.cols r c1 || condTest T.cols r c2)⟩ := by
  rw [apply_filters_of_active T [c1, c2] L (by simp [hasActiveCond, h1])]
  congr 1
  refine List.filter_congr (fun r _ => ?_)
  cases L <;> simp [activeConds, List.filter_cons, h1, h2]

theorem apply_filters_pair_first (T : Table) (c1 c2 : Condition) (L : FilterLogic)
    (h1 : c1.1 ∈ T.cols) (h2 : c2.1 ∉ T.cols) :
    apply_filters T [c1, c2] L = ⟨T.cols, T.rows.filter (fun r => condTest T.cols r c1)⟩ := by
  rw [apply_filters_of_active T [c1, c2] L (by simp [hasActiveCond, h1])]
  congr 1
  refine List.filter_congr (fun r _ => ?_)
  cases L <;> simp [activeConds, List.filter_cons, h1, h2]

theorem apply_filters_pair_second (T : Table) (c1 c2 : Condition) (L : FilterLogic)
    (h1 : c1.1 ∉ T.cols) (h2 : c2.1 ∈ T.cols) :
    apply_filters T [c1, c2] L = ⟨T.cols, T.rows.filter (fun r => condTest T.cols r c2)⟩ := by
  rw [apply_filters_of_active T [c1, c2] L (by simp [hasActiveCond, h2])]
  congr 1
  refine List.filter_congr (fun r _ => ?_)
  cases L <;> simp [activeConds, List.filter_cons, h1, h2]

/-! ## C1: row selection of `apply_filters` -/

/-- C1 (amended): for conditions whose patterns are plain ASCII text
free of regex metacharacters — on which the regex engine behind
str.contains performs exact literal search and cannot raise — over
tables whose cell texts are ASCII, and with at least one condition on
a present column, `apply_filters` keeps the columns and returns
exactly the rows whose contributing per-condition tests, combined
under the chosen logic, are true, in their original order. The
per-condition test converts the cell to text and searches the pattern
case-insensitively; a missing cell converts to the string "nan" (so it
matches exactly the patterns occurring in "nan" and never raises),
rather than testing false as the original claim stated. The two
domain hypotheses confine the statement to inputs on which the
embedding is exact; outside them the source matches regex-wise, folds
non-ASCII case pairs, or takes the except fallback. -/
theorem apply_filters_selects_matching_rows (df : Table) (conds : List Condition)
    (logic : FilterLogic) (h : hasActiveCond df conds = true)
    (_hpat : ∀ c ∈ conds, literalPattern c.2 = true)
    (_hascii : ∀ r ∈ df.rows, ∀ v ∈ r, asciiString (astypeStr v) = true) :
    (apply_filters df conds logic).cols = df.cols ∧
    (apply_filters df conds logic).rows = df.rows.filter (fun r =>
      match logic with
      | .AND => (activeConds df.cols conds).all (condTest df.cols r)
      | .OR => (activeConds df.cols conds).any (condTest df.cols r)) := by
  cases logic
  · rw [apply_filters_of_active df conds FilterLogic.AND h]
    exact ⟨rfl, rfl⟩
  · rw [apply_filters_of_active df conds FilterLogic.OR h]
    exact ⟨rfl, rfl⟩

/-- C1 counterexample: on a table whose only Region cell is missing,
the condition (Region contains "a") keeps the row, because the missing
cell is textualized as "nan"; under the claim as stated (missing tests
false) the row would be dropped, as `spec_apply_filters` shows. -/
theorem apply_filters_null_cell_counterexample :
    apply_filters nullRegionTable [("Region", "a")] FilterLogic.AND ≠
      spec_apply_filters nullRegionTable [("Region", "a")] FilterLogic.AND := by
  decide

/-- C1 witness: the walkthrough scenario. The pattern "east" is
literal ASCII, the Sales cells are ASCII, and filtering by
(Region contains "east") under AND keeps exactly the East row. -/
theorem apply_filters_selects_matching_rows_witness :
    hasActiveCond salesTable [("Region", "east")] = true ∧
    literalPattern "east" = true ∧
    (apply_filters salesTable [("Region", "east")] FilterLogic.AND).rows =
      salesTable.rows.filter (fun r =>
        (activeConds salesTable.cols [("Region", "east")]).all (condTest salesTable.cols r)) ∧
    (apply_filters salesTable [("Region", "east")] FilterLogic.AND).rows =
      [[Value.str "East", Value.int 10]] :=
  ⟨by decide, by decide,
   (apply_filters_selects_matching_rows salesTable [("Region", "east")]
      FilterLogic.AND (by decide) (by decide) (by decide)).2,
   by decide⟩

/-! ## C2: no contributing condition leaves the table unchanged -/

/-- C2: with an empty condition list, or more generally whenever no
condition references a column present in the table, `apply_filters`
returns its input table unchanged. -/
theorem apply_filters_inactive_identity (T : Table) (conds : List Condition)
    (L : FilterLogic) (h : ∀ c ∈ conds, c.1 ∉ T.cols) :
    apply_filters T [] L = T ∧ apply_filters T conds L = T := by
  refine ⟨apply_filters_of_inactive T [] L rfl, apply_filters_of_inactive T conds L ?_⟩
  simp only [hasActiveCond, List.any_eq_false]
  intro c hc
  simpa using h c hc

/-- C2 witness: a single condition on the absent column "Nope" leaves
the Sales table untouched. -/
theorem apply_filters_inactive_identity_witness :
    (∀ c ∈ ([("Nope", "x")] : List Condition), c.1 ∉ salesTable.cols) ∧
    apply_filters salesTable [("Nope", "x")] FilterLogic.AND = salesTable :=
  ⟨by decide,
   (apply_filters_inactive_identity salesTable [("Nope", "x")] FilterLogic.AND (by decide)).2⟩

/-! ## C3: AND narrows, OR widens -/

/-- C3 (amended): for two conditions whose patterns are plain ASCII
text free of regex metacharacters — so that filter evaluation cannot
raise; on an invalid regex pattern the source takes the except path
and returns the whole unfiltered frame, which is broader than a
single condition alone — the two-condition AND result is always
contained in each single-condition result, and the single-condition
result for `ci` is contained in the two-condition OR result provided
`ci` references a present column or the other condition references an
absent one. The unconditional OR half of the original claim fails
when `ci` is a no-op (absent column) while the other condition is
active. -/
theorem and_never_broader_or_wider (T : Table) (c1 c2 : Condition)
    (L : FilterLogic) (r : List Value)
    (_hp1 : literalPattern c1.2 = true) (_hp2 : literalPattern c2.2 = true) :
    (r ∈ (apply_filters T [c1, c2] FilterLogic.AND).rows →
      r ∈ (apply_filters T [c1] L).rows ∧ r ∈ (apply_filters T [c2] L).rows) ∧
    (c1.1 ∈ T.cols ∨ c2.1 ∉ T.cols →
      r ∈ (apply_filters T [c1] L).rows →
      r ∈ (apply_filters T [c1, c2] FilterLogic.OR).rows) ∧
    (c2.1 ∈ T.cols ∨ c1.1 ∉ T.cols →
      r ∈ (apply_filters T [c2] L).rows →
      r ∈ (apply_filters T [c1, c2] FilterLogic.OR).rows) := by
  by_cases h1 : c1.1 ∈ T.cols <;> by_cases h2 : c2.1 ∈ T.cols
  · rw [apply_filters_pair_active T c1 c2 FilterLogic.AND h1 h2,
      apply_filters_pair_active T c1 c2 FilterLogic.OR h1 h2,
      apply_filters_single T c1 L h1, apply_filters_single T c2 L h2]
    simp only [List.mem_filter, Bool.and_eq_true, Bool.or_eq_true]
    tauto
  · rw [apply_filters_pair_first T c1 c2 FilterLogic.AND h1 h2,
      apply_filters_pair_first T c1 c2 FilterLogic.OR h1 h2,
      apply_filters_single T c1 L h1,
      apply_filters_of_inactive T [c2] L (by simp [hasActiveCond, h2])]
    simp only [List.mem_filter]
    tauto
  · rw [apply_filters_pair_second T c1 c2 FilterLogic.AND h1 h2,
      apply_filters_pair_second T c1 c2 FilterLogic.OR h1 h2,
      apply_filters_single T c2 L h2,
      apply_filters_of_inactive T [c1] L (by simp [hasActiveCond, h1])]
    simp only [List.mem_filter]
    tauto
  · rw [apply_filters_of_inactive T [c1, c2] FilterLogic.AND (by simp [hasActiveCond, h1, h2]),
      apply_filters_of_inactive T [c1, c2] FilterLogic.OR (by simp [hasActiveCond, h1, h2]),
      apply_filters_of_inactive T [c1] L (by simp [hasActiveCond, h1]),
      apply_filters_of_inactive T [c2] L (by simp [hasActiveCond, h2])]
    tauto

/-- C3 counterexample: with c1 on the absent column B and c2 on the
present column A with a pattern matching nothing, the single-condition
result for c1 is the whole table while the OR of both conditions is
empty, so OR IS narrower than one condition alone. -/
theorem or_narrower_counterexample :
    ¬ (∀ r ∈ (apply_filters xTable [("B", "y")] FilterLogic.AND).rows,
        r ∈ (apply_filters xTable [("B", "y"), ("A", "z")] FilterLogic.OR).rows) := by
  decide

/-- C3 witness: with two literal-pattern conditions on present columns
of the Sales table, the East row in the AND result is in each single
result, and a row of a single result is in the OR result. -/
theorem and_never_broader_or_wider_witness :
    [Value.str "East", Value.int 10] ∈
      (apply_filters salesTable [("Region", "east")] FilterLogic.AND).rows ∧
    [Value.str "East", Value.int 10] ∈
      (apply_filters salesTable [("Region", "east"), ("Amt", "1")] FilterLogic.OR).rows :=
  have h := and_never_broader_or_wider salesTable ("Region", "east") ("Amt", "1")
    FilterLogic.AND [Value.str "East", Value.int 10] (by decide) (by decide)
  ⟨(h.1 (by decide)).1, h.2.1 (Or.inl (by decide)) (by decide)⟩

/-! ## Characterization of the sheet loop -/

theorem processStep_foldl (fname : String) (conds : List Condition)
    (logic : FilterLogic) (preview : Bool) :
    ∀ (sheets : List (String × Table)) (p0 pv0 : List (String × Table)) (s0 : RunState),
      sheets.foldl (processStep fname conds logic preview) (p0, pv0, s0) =
        (p0 ++ sheets.filterMap (keptEntry fname conds logic),
         pv0 ++ (if preview then
             (sheets.filterMap (keptEntry fname conds logic)).map
               (fun e => (e.1, headTable 5 e.2))
           else []),
         ⟨s0.error_sheets ++ sheets.filterMap (skipLog fname conds logic),
          s0.processed_sheets + (sheets.filterMap (keptEntry fname conds logic)).length⟩) := by
  intro sheets
  induction sheets with
  | nil =>
    intro p0 pv0 s0
    simp
  | cons sh rest ih =>
    intro p0 pv0 s0
    rw [List.foldl_cons]
    by_cases hE : sh.2.rows.isEmpty
    · have hstep : processStep fname conds logic preview (p0, pv0, s0) sh =
          (p0, pv0,
            ⟨s0.error_sheets ++ [sh.1 ++ " in " ++ fname ++ ": Sheet is empty"],
             s0.processed_sheets⟩) := by
        simp [processStep, hE]
      rw [hstep, ih]
      simp [List.filterMap_cons, keptEntry, skipLog, hE, List.append_assoc]
    · by_cases hF : (apply_filters sh.2 conds logic).rows.isEmpty
      · have hstep : processStep fname conds logic preview (p0, pv0, s0) sh =
            (p0, pv0,
              ⟨s0.error_sheets ++ [sh.1 ++ " in " ++ fname ++ ": No rows remain after filtering"],
               s0.processed_sheets⟩) := by
          simp [processStep, hE, hF]
        rw [hstep, ih]
        simp [List.filterMap_cons, keptEntry, skipLog, hE, hF, List.append_assoc]
      · have hstep : processStep fname conds logic preview (p0, pv0, s0) sh =
            (p0 ++ [(newSheetName fname sh.1, apply_filters sh.2 conds logic)],
             if preview then
               pv0 ++ [(newSheetName fname sh.1, headTable 5 (apply_filters sh.2 conds logic))]
             else pv0,
             ⟨s0.error_sheets, s0.processed_sheets + 1⟩) := by
          simp [processStep, hE, hF]
        rw [hstep, ih]
        cases preview <;>
          simp [List.filterMap_cons, keptEntry, skipLog, hE, hF, List.append_assoc] <;>
          omega

theorem process_excel_file_processed (file : ExcelFile) (conds : List Condition)
    (logic : FilterLogic) (preview : Bool) (st : RunState) :
    (process_excel_file file conds logic preview st).1 =
      file.sheets.filterMap (keptEntry file.name conds logic) := by
  rw [process_excel_file]
  by_cases h : file.sheets.isEmpty
  · rw [if_pos h, List.isEmpty_iff.mp h]
    rfl
  · rw [if_neg h, processStep_foldl]
    simp

theorem process_excel_file_preview_data (file : ExcelFile) (conds : List Condition)
    (logic : FilterLogic) (preview : Bool) (st : RunState) :
    (process_excel_file file conds logic preview st).2.1 =
      if preview then
        (file.sheets.filterMap (keptEntry file.name conds logic)).map
          (fun e => (e.1, headTable 5 e.2))
      else [] := by
  rw [process_excel_file]
  by_cases h : file.sheets.isEmpty
  · rw [if_pos h, List.isEmpty_iff.mp h]
    cases preview <;> simp
  · rw [if_neg h, processStep_foldl]
    simp

theorem process_excel_file_state (file : ExcelFile) (conds : List Condition)
    (logic : FilterLogic) (preview : Bool) (st : RunState) :
    (process_excel_file file conds logic preview st).2.2 =
      if file.sheets.isEmpty then
        ⟨st.error_sheets ++ [file.name ++ ": No sheets found"], st.processed_sheets⟩
      else
        ⟨st.error_sheets ++ file.sheets.filterMap (skipLog file.name conds logic),
         st.processed_sheets +
           (file.sheets.filterMap (keptEntry file.name conds logic)).length⟩ := by
  rw [process_excel_file]
  by_cases h : file.sheets.isEmpty
  · rw [if_pos h, if_pos h]
  · rw [if_neg h, if_neg h, processStep_foldl]

theorem combine_files_foldl (conds : List Condition) (logic : FilterLogic) :
    ∀ (files : List ExcelFile) (a0 : List (String × Table)) (s0 : RunState),
      (files.foldl (fun acc file =>
        let r := process_excel_file file conds logic false acc.2
        (acc.1 ++ r.1, r.2.2)) (a0, s0)).1 =
      a0 ++ files.flatMap (fun f => f.sheets.filterMap (keptEntry f.name conds logic)) := by
  intro files
  induction files with
  | nil => intro a0 s0; simp
  | cons f fs ih =>
    intro a0 s0
    rw [List.foldl_cons]
    refine (ih _ _).trans ?_
    rw [process_excel_file_processed]
    simp [List.append_assoc]

/-! ## C6: ordering and naming of the combined output -/

/-- C6: the Combine and Download loop emits, in input file order and
in in-file sheet order, exactly the kept entries of every workbook; and
each kept entry is displayed under the name built by sanitizing the
sheet name and the extension-free file name, joining them with an
underscore, and truncating to 31 characters. -/
theorem combine_output_order_and_names (files : List ExcelFile)
    (conds : List Condition) (logic : FilterLogic) (st : RunState) :
    (combine_files files conds logic st).1 =
      files.flatMap (fun f => f.sheets.filterMap (keptEntry f.name conds logic)) ∧
    (∀ (fname : String) (sheet : String × Table) (e : String × Table),
      keptEntry fname conds logic sheet = some e →
        e.1 = String.mk (((sanitize_sheet_name sheet.1) ++ "_" ++
          (sanitize_sheet_name (splitextBase fname))).data.take 31)) := by
  constructor
  · rw [combine_files]
    exact combine_files_foldl conds logic files [] st
  · intro fname sheet e h
    by_cases hE : sheet.2.rows.isEmpty
    · rw [keptEntry, if_pos hE] at h
      exact absurd h (by simp)
    · by_cases hF : (apply_filters sheet.2 conds logic).rows.isEmpty
      · have hnone : keptEntry fname conds logic sheet = none := by
          simp [keptEntry, hE, hF]
        rw [hnone] at h
        exact absurd h (by simp)
      · have hsome : keptEntry fname conds logic sheet =
            some (newSheetName fname sheet.1, apply_filters sheet.2 conds logic) := by
          simp [keptEntry, hE, hF]
        rw [hsome] at h
        cases h
        rfl

/-- C6 witness: the scenario sheet `Q1` of `Sales.xlsx` is kept as the
East row under the display name "Q1_Sales", which is exactly the
sanitize-join-truncate name. -/
theorem combine_output_order_and_names_witness :
    keptEntry "Sales.xlsx" [("Region", "east")] FilterLogic.AND ("Q1", salesTable) =
      some ("Q1_Sales", ⟨["Region", "Amt"], [[Value.str "East", Value.int 10]]⟩) ∧
    "Q1_Sales" = String.mk (((sanitize_sheet_name "Q1") ++ "_" ++
      (sanitize_sheet_name (splitextBase "Sales.xlsx"))).data.take 31) :=
  ⟨by decide,
   (combine_output_order_and_names [] [("Region", "east")] FilterLogic.AND ⟨[], 0⟩).2
     "Sales.xlsx" ("Q1", salesTable)
     ("Q1_Sales", ⟨["Region", "Amt"], [[Value.str "East", Value.int 10]]⟩)
     (by decide)⟩

/-! ## C7: a sheet is kept iff non-empty before and after filtering -/

/-- C7: a sheet contributes an output entry exactly when it has rows
and its filtered result has rows; skipped sheets leave their log entry
("Sheet is empty" or "No rows remain after filtering") without touching
the processed counter, the counter grows by exactly the number of kept
entries, and no kept entry holds an empty table. -/
theorem sheet_kept_iff_nonempty (file : ExcelFile) (conds : List Condition)
    (logic : FilterLogic) (preview : Bool) (st : RunState)
    (hne : file.sheets ≠ []) :
    (process_excel_file file conds logic preview st).1 =
      file.sheets.filterMap (keptEntry file.name conds logic) ∧
    (∀ sheet ∈ file.sheets,
      (keptEntry file.name conds logic sheet).isSome = true ↔
        (sheet.2.rows ≠ [] ∧ (apply_filters sheet.2 conds logic).rows ≠ [])) ∧
    (∀ e ∈ (process_excel_file file conds logic preview st).1, e.2.rows ≠ []) ∧
    (process_excel_file file conds logic preview st).2.2.error_sheets =
      st.error_sheets ++ file.sheets.filterMap (skipLog file.name conds logic) ∧
    (process_excel_file file conds logic preview st).2.2.processed_sheets =
      st.processed_sheets + (process_excel_file file conds logic preview st).1.length := by
  have hempty : file.sheets.isEmpty = false := by
    cases hs : file.sheets.isEmpty
    · rfl
    · exact absurd (List.isEmpty_iff.mp hs) hne
  refine ⟨process_excel_file_processed file conds logic preview st, ?_, ?_, ?_, ?_⟩
  · intro sheet _
    by_cases hE : sheet.2.rows = []
    · simp [keptEntry, List.isEmpty_iff, hE]
    · by_cases hF : (apply_filters sheet.2 conds logic).rows = []
      · simp [keptEntry, List.isEmpty_iff, hE, hF]
      · simp [keptEntry, List.isEmpty_iff, hE, hF]
  · intro e he
    rw [process_excel_file_processed] at he
    rcases List.mem_filterMap.mp he with ⟨sheet, _, hk⟩
    by_cases hE : sheet.2.rows.isEmpty
    · rw [keptEntry, if_pos hE] at hk
      exact absurd hk (by simp)
    · by_cases hF : (apply_filters sheet.2 conds logic).rows.isEmpty
      · have hnone : keptEntry file.name conds logic sheet = none := by
          simp [keptEntry, hE, hF]
        rw [hnone] at hk
        exact absurd hk (by simp)
      · have hsome : keptEntry file.name conds logic sheet =
            some (newSheetName file.name sheet.1, apply_filters sheet.2 conds logic) := by
          simp [keptEntry, hE, hF]
        rw [hsome] at hk
        cases hk
        simpa [List.isEmpty_iff] using hF
  · rw [process_excel_file_state, if_neg (by simp [hempty])]
  · rw [process_excel_file_state, if_neg (by simp [hempty]),
      process_excel_file_processed]

/-- C7 witness: processing a workbook holding the scenario sheet and an
empty sheet keeps exactly one entry, logs the empty sheet, and raises
the counter from 7 to 8. -/
theorem sheet_kept_iff_nonempty_witness :
    (process_excel_file salesFileWithEmpty [("Region", "east")] FilterLogic.AND false
        ⟨["old"], 7⟩).2.2.processed_sheets =
      7 + (process_excel_file salesFileWithEmpty [("Region", "east")] FilterLogic.AND false
        ⟨["old"], 7⟩).1.length ∧
    (process_excel_file salesFileWithEmpty [("Region", "east")] FilterLogic.AND false
        ⟨["old"], 7⟩).1.length = 1 ∧
    (process_excel_file salesFileWithEmpty [("Region", "east")] FilterLogic.AND false
        ⟨["old"], 7⟩).2.2.error_sheets =
      ["old", "Empty in Sales.xlsx: Sheet is empty"] :=
  ⟨(sheet_kept_iff_nonempty salesFileWithEmpty [("Region", "east")] FilterLogic.AND false
      ⟨["old"], 7⟩ (by decide)).2.2.2.2,
   by decide, by decide⟩

/-! ## C10: preview mode changes nothing but the preview list -/

/-- C10: with the same inputs, preview mode returns the same processed
list and the same final session state as the combining mode, and its
preview list pairs each processed name with the first five rows (at
most) of its table, in the same order; the combining mode returns an
empty preview list. -/
theorem preview_mode_consistent (file : ExcelFile) (conds : List Condition)
    (logic : FilterLogic) (st : RunState) :
    (process_excel_file file conds logic true st).1 =
      (process_excel_file file conds logic false st).1 ∧
    (process_excel_file file conds logic true st).2.2 =
      (process_excel_file file conds logic false st).2.2 ∧
    (process_excel_file file conds logic true st).2.1 =
      (process_excel_file file conds logic true st).1.map
        (fun e => (e.1, headTable 5 e.2)) ∧
    (process_excel_file file conds logic false st).2.1 = [] := by
  refine ⟨?_, ?_, ?_, ?_⟩
  · rw [process_excel_file_processed, process_excel_file_processed]
  · rw [process_excel_file_state, process_excel_file_state]
  · rw [process_excel_file_preview_data, process_excel_file_processed]
    simp
  · rw [process_excel_file_preview_data]
    simp

/-! ## C8: a filter failure is caught and the input returned -/

/-- C8: the try/except wrapper around filter evaluation is a total
function (it always returns a table, never propagating an exception);
when the body succeeds its result passes through untouched, and when
the body raises, the error is appended to the log as an
"Error applying filters" entry and the original unfiltered table is
returned as the fallback. -/
theorem filter_failure_contained
    (body : Table → List Condition → FilterLogic → Except String Table)
    (df : Table) (conds : List Condition) (logic : FilterLogic)
    (errs : List String) :
    (∀ t, body df conds logic = Except.ok t →
      apply_filtersCaught body df conds logic errs = (t, errs)) ∧
    (∀ e, body df conds logic = Except.error e →
      apply_filtersCaught body df conds logic errs =
        (df, errs ++ ["Error applying filters: " ++ e])) := by
  constructor <;> intro x hx <;> simp [apply_filtersCaught, hx]

/-- C8 witness: a body that always raises leaves the Sales table
unchanged and logs the failure after the existing entries. -/
theorem filter_failure_contained_witness :
    apply_filtersCaught (fun _ _ _ => Except.error "boom") salesTable
        [("Region", "east")] FilterLogic.AND ["old"] =
      (salesTable, ["old"] ++ ["Error applying filters: " ++ "boom"]) :=
  (filter_failure_contained (fun _ _ _ => Except.error "boom") salesTable
    [("Region", "east")] FilterLogic.AND ["old"]).2 "boom" rfl

/-! ## C9: oversized archives are rejected before parsing -/

/-- C9: when the uploaded archive is larger than 100MB the run is
rejected up front: the result carries no sheet list, the session log is
empty, and the processed counter is zero; the parsed archive contents
are never consulted (the result is a constant independent of them). -/
theorem size_guard_rejects_before_parsing (zipBytes : Nat)
    (files : List ExcelFile) (conds : List Condition) (logic : FilterLogic)
    (h : 100 * 1024 * 1024 < zipBytes) :
    combine_run zipBytes files conds logic = (none, ⟨[], 0⟩) := by
  rw [combine_run, if_pos]
  simp [zipSizeExceeds, h]

/-- C9 witness: one byte above the limit, a non-trivial archive is
rejected with an empty log. -/
theorem size_guard_rejects_before_parsing_witness :
    100 * 1024 * 1024 < 104857601 ∧
    combine_run 104857601 [salesFileWithEmpty] [("Region", "east")] FilterLogic.AND =
      (none, ⟨[], 0⟩) :=
  ⟨by decide,
   size_guard_rejects_before_parsing 104857601 [salesFileWithEmpty]
     [("Region", "east")] FilterLogic.AND (by decide)⟩
